import Mathlib

/-!
Verification of the NBA game-prediction scoring engine
(`src/backend/src/predictor/engine.py`).

Shallow embedding choices:
* Python floats are modelled as exact rationals `ℚ`.
* A stats dictionary is an association list `List (String × ℚ)`;
  `dict.get(key, 0.0)` is first-match lookup with default `0`.
* Python's `round(x, d)` rounds half to even; it is modelled by
  `pyround` below via `roundHalfEven`.
* `predict_game` returns `Option Prediction`: `none` models the
  `ZeroDivisionError` raised by `score_diff / total_score` when the
  combined adjusted score is zero (the source has no guard for it).
-/

/-- Team statistics: a finite mapping from stat name to value,
modelling the Python dict passed to the engine. -/
abbrev TeamStats := List (String × ℚ)

/-- First-match lookup in a stats mapping, modelling `key in dict`
resolution of a Python dict (keys are unique in a dict, so first
match is the match). -/
def statLookup : TeamStats → String → Option ℚ
  | [], _ => none
  | (k, v) :: rest, key => if key = k then some v else statLookup rest key

/-- Value of a stat with default `0`, modelling `stats.get(name, 0.0)`. -/
def statGet (stats : TeamStats) (key : String) : ℚ :=
  (statLookup stats key).getD 0

/-- Stat weights for the scoring algorithm, in source order
(`WEIGHTS` in `engine.py`). -/
def WEIGHTS : List (String × ℚ) :=
  [("fg_pct", 3), ("ppg", 1/2), ("apg", 2), ("rpg", 3/2)]

/-- Home court advantage bonus (`HOME_COURT_ADVANTAGE` in `engine.py`). -/
def HOME_COURT_ADVANTAGE : ℚ := 5

/-- Embedding of `calculate_team_score`: fold over `WEIGHTS`,
accumulating `stats.get(stat_name, 0.0) * weight` from `0.0`. -/
def calculate_team_score (stats : TeamStats) : ℚ :=
  WEIGHTS.foldl (fun score p => score + statGet stats p.1 * p.2) 0

/-- A team record: `name`, `abbreviation` and a `stats` mapping. -/
structure TeamInput where
  name : String
  abbreviation : String
  stats : TeamStats
deriving DecidableEq

/-- The engine's output record. -/
structure Prediction where
  predicted_winner : String
  winner_abbreviation : String
  confidence : ℚ
  home_score : ℚ
  away_score : ℚ
  score_difference : ℚ
deriving DecidableEq

/-- Round half to even on `ℚ`, the tie-breaking rule of Python's
built-in `round`. -/
def roundHalfEven (x : ℚ) : ℤ :=
  if Int.fract x < 1/2 then ⌊x⌋
  else if 1/2 < Int.fract x then ⌊x⌋ + 1
  else if ⌊x⌋ % 2 = 0 then ⌊x⌋ else ⌊x⌋ + 1

/-- Model of Python's `round(x, d)` for `d` decimal digits. -/
def pyround (x : ℚ) (d : ℕ) : ℚ :=
  (roundHalfEven (x * 10 ^ d) : ℚ) / 10 ^ d

/-- Embedding of `predict_game`. The two `let home_score` bindings
mirror the source's reassignment `home_score += HOME_COURT_ADVANTAGE`;
the branch on `away_score < home_score` is the source's
`if home_score > away_score`; `none` is the `ZeroDivisionError`
raised by `(score_diff / total_score)` when `total_score == 0`. -/
def predict_game (home_team away_team : TeamInput)
    (use_home_advantage : Bool) : Option Prediction :=
  let home_score := calculate_team_score home_team.stats
  let away_score := calculate_team_score away_team.stats
  let home_score :=
    if use_home_advantage then home_score + HOME_COURT_ADVANTAGE else home_score
  let r :=
    if away_score < home_score then
      (home_team.name, home_team.abbreviation, home_score - away_score)
    else
      (away_team.name, away_team.abbreviation, away_score - home_score)
  let total_score := home_score + away_score
  if total_score = 0 then none
  else some {
    predicted_winner := r.1
    winner_abbreviation := r.2.1
    confidence := pyround (min (r.2.2 / total_score * 2000) (999/10)) 1
    home_score := pyround home_score 2
    away_score := pyround away_score 2
    score_difference := pyround r.2.2 2 }

/-- The home team's adjusted score: raw strength score plus the
home-court bonus when the flag is set. -/
def homeAdjusted (home : TeamInput) (use_home_advantage : Bool) : ℚ :=
  if use_home_advantage then
    calculate_team_score home.stats + HOME_COURT_ADVANTAGE
  else
    calculate_team_score home.stats

/-- The tail of `predict_game` as a function of the two already
adjusted scores: winner choice, confidence, rounding. -/
def predictWith (hname habbr : String) (home_score : ℚ)
    (aname aabbr : String) (away_score : ℚ) : Option Prediction :=
  let r :=
    if away_score < home_score then (hname, habbr, home_score - away_score)
    else (aname, aabbr, away_score - home_score)
  let total_score := home_score + away_score
  if total_score = 0 then none
  else some {
    predicted_winner := r.1
    winner_abbreviation := r.2.1
    confidence := pyround (min (r.2.2 / total_score * 2000) (999/10)) 1
    home_score := pyround home_score 2
    away_score := pyround away_score 2
    score_difference := pyround r.2.2 2 }

/-- Closed formula for the strength score, following the spec's words:
`score = fg_pct*3.0 + ppg*0.5 + apg*2.0 + rpg*1.5`. -/
def score_spec_formula (stats : TeamStats) : ℚ :=
  statGet stats "fg_pct" * 3 + statGet stats "ppg" * (1/2)
    + statGet stats "apg" * 2 + statGet stats "rpg" * (3/2)

/-- All values in a stats mapping are nonnegative — the domain
constraint of the spec's data model (`fg_pct` 0–100, the other
recognized stats ≥ 0). -/
def nonnegStats (stats : TeamStats) : Prop := ∀ p ∈ stats, 0 ≤ p.2

/-- Unfolding of the fold in `calculate_team_score` into the closed
four-term sum. -/
lemma score_unfold (stats : TeamStats) :
    calculate_team_score stats
      = statGet stats "fg_pct" * 3 + statGet stats "ppg" * (1/2)
        + statGet stats "apg" * 2 + statGet stats "rpg" * (3/2) := by
  simp only [calculate_team_score, WEIGHTS, List.foldl]
  ring

/-- Looked-up stat values are nonnegative over a nonnegative mapping. -/
lemma statGet_nonneg : ∀ (stats : TeamStats), nonnegStats stats →
    ∀ key, 0 ≤ statGet stats key
  | [], _, _ => by simp [statGet, statLookup]
  | (k, v) :: rest, h, key => by
    by_cases hk : key = k
    · have hv : 0 ≤ v := h (k, v) (by simp)
      simpa [statGet, statLookup, hk] using hv
    · have hrest : nonnegStats rest := fun q hq => h q (by simp [hq])
      simpa [statGet, statLookup, hk] using statGet_nonneg rest hrest key

/-- The strength score of a nonnegative stats mapping is nonnegative. -/
lemma score_nonneg (stats : TeamStats) (h : nonnegStats stats) :
    0 ≤ calculate_team_score stats := by
  rw [score_unfold]
  have h1 := statGet_nonneg stats h "fg_pct"
  have h2 := statGet_nonneg stats h "ppg"
  have h3 := statGet_nonneg stats h "apg"
  have h4 := statGet_nonneg stats h "rpg"
  nlinarith

/-- The adjusted home score of a nonnegative stats mapping is nonnegative. -/
lemma homeAdjusted_nonneg (home : TeamInput) (b : Bool)
    (h : nonnegStats home.stats) : 0 ≤ homeAdjusted home b := by
  cases b
  · simpa [homeAdjusted] using score_nonneg home.stats h
  · have := score_nonneg home.stats h
    simp only [homeAdjusted, HOME_COURT_ADVANTAGE, if_pos]
    linarith

/-- `predict_game` factors through `predictWith` applied to the two
adjusted scores. -/
lemma predict_game_eq (home away : TeamInput) (b : Bool) :
    predict_game home away b
      = predictWith home.name home.abbreviation (homeAdjusted home b)
          away.name away.abbreviation (calculate_team_score away.stats) := by
  cases b <;> rfl

/-- `roundHalfEven` returns the floor or the floor plus one. -/
lemma roundHalfEven_cases (x : ℚ) :
    roundHalfEven x = ⌊x⌋ ∨ roundHalfEven x = ⌊x⌋ + 1 := by
  unfold roundHalfEven
  split_ifs <;> simp

/-- Rounding a nonnegative rational half to even is nonnegative. -/
lemma roundHalfEven_nonneg (x : ℚ) (hx : 0 ≤ x) : 0 ≤ roundHalfEven x := by
  have h0 : 0 ≤ ⌊x⌋ := Int.floor_nonneg.2 hx
  rcases roundHalfEven_cases x with h | h <;> omega

/-- Rounding half to even never exceeds the ceiling. -/
lemma roundHalfEven_le_ceil (x : ℚ) : roundHalfEven x ≤ ⌈x⌉ := by
  have hkey : ¬ Int.fract x < 1/2 → ⌊x⌋ + 1 ≤ ⌈x⌉ := by
    intro hge
    have hf : 0 < Int.fract x := lt_of_lt_of_le (by norm_num) (not_lt.1 hge)
    have hfl : (⌊x⌋ : ℚ) < x := by
      have hd := Int.self_sub_floor x
      nlinarith [hf, hd]
    exact Int.lt_ceil.2 hfl
  unfold roundHalfEven
  split_ifs with h1 h2 h3
  · exact Int.floor_le_ceil x
  · exact hkey h1
  · exact Int.floor_le_ceil x
  · exact hkey h1

/-- `pyround` of a nonnegative rational is nonnegative. -/
lemma pyround_nonneg (x : ℚ) (d : ℕ) (hx : 0 ≤ x) : 0 ≤ pyround x d := by
  unfold pyround
  have h1 : 0 ≤ roundHalfEven (x * 10 ^ d) :=
    roundHalfEven_nonneg _ (by positivity)
  have h2 : (0 : ℚ) ≤ (roundHalfEven (x * 10 ^ d) : ℚ) := by exact_mod_cast h1
  positivity

/-- Upper bound on `pyround` from an integer bound on `x * 10 ^ d`. -/
lemma pyround_le (x : ℚ) (d : ℕ) (n : ℤ) (hx : x * 10 ^ d ≤ (n : ℚ)) :
    pyround x d ≤ (n : ℚ) / 10 ^ d := by
  unfold pyround
  have h1 : roundHalfEven (x * 10 ^ d) ≤ ⌈x * 10 ^ d⌉ := roundHalfEven_le_ceil _
  have h2 : ⌈x * 10 ^ d⌉ ≤ n := Int.ceil_le.2 hx
  have h3 : (roundHalfEven (x * 10 ^ d) : ℚ) ≤ (n : ℚ) := by exact_mod_cast le_trans h1 h2
  have hp : (0 : ℚ) < 10 ^ d := by positivity
  exact div_le_div_iff_of_pos_right hp |>.2 h3

/-- `predictWith` is `none` exactly when the combined score is zero. -/
lemma predictWith_zero (hn hb : String) (h : ℚ) (an ab : String) (a : ℚ)
    (h0 : h + a = 0) : predictWith hn hb h an ab a = none := by
  simp [predictWith, h0]

/-- Closed form of `predictWith` when the combined score is nonzero. -/
lemma predictWith_def (hn hb : String) (h : ℚ) (an ab : String) (a : ℚ)
    (hne : h + a ≠ 0) :
    predictWith hn hb h an ab a = some {
      predicted_winner := if a < h then hn else an
      winner_abbreviation := if a < h then hb else ab
      confidence := pyround (min (|h - a| / (h + a) * 2000) (999/10)) 1
      home_score := pyround h 2
      away_score := pyround a 2
      score_difference := pyround |h - a| 2 } := by
  by_cases hlt : a < h
  · have habs : |h - a| = h - a := abs_of_pos (sub_pos.2 hlt)
    simp [predictWith, hne, hlt, habs]
  · have habs : |h - a| = a - h := by
      rw [abs_sub_comm]
      exact abs_of_nonneg (sub_nonneg.2 (not_lt.1 hlt))
    simp [predictWith, hne, hlt, habs]

/-- The strength score of an empty stats mapping is `0`. -/
lemma score_nil : calculate_team_score ([] : TeamStats) = 0 := by
  rw [score_unfold]
  simp [statGet, statLookup]

/-- `pyround` is the identity on rationals already exact at `d` digits. -/
lemma pyround_eq_self (x : ℚ) (d : ℕ) (n : ℤ) (hx : x * 10 ^ d = (n : ℚ)) :
    pyround x d = x := by
  have hfr : Int.fract ((n : ℚ)) = 0 := Int.fract_intCast n
  unfold pyround
  rw [hx]
  rw [roundHalfEven]
  rw [hfr]
  rw [if_pos (by norm_num : (0:ℚ) < 1/2)]
  rw [Int.floor_intCast]
  rw [eq_comm, eq_div_iff (by positivity : ((10:ℚ)) ^ d ≠ 0)]
  exact hx

/-- Evaluation of the engine on two all-empty stats mappings with home
advantage on: the home side wins on the bonus alone with confidence
`99.9`. Shared evaluation lemma for the concrete witnesses below. -/
lemma predict_game_empty (hn hb an ab : String) :
    predict_game ⟨hn, hb, []⟩ ⟨an, ab, []⟩ true
      = some ⟨hn, hb, 999/10, 5, 0, 5⟩ := by
  have hadj : homeAdjusted ⟨hn, hb, []⟩ true = 5 := by
    simp [homeAdjusted, HOME_COURT_ADVANTAGE, score_nil]
  have hconf : pyround (min (|(5:ℚ) - 0| / (5 + 0) * 2000) (999/10)) 1 = 999/10 := by
    have hm : min (|(5:ℚ) - 0| / (5 + 0) * 2000) (999/10) = 999/10 := by
      rw [sub_zero, abs_of_nonneg (by norm_num : (0:ℚ) ≤ 5)]
      rw [min_eq_right (by norm_num)]
    rw [hm]
    exact pyround_eq_self _ _ 999 (by norm_num)
  have hfive : pyround (5:ℚ) 2 = 5 := pyround_eq_self _ _ 500 (by norm_num)
  have hzero : pyround (0:ℚ) 2 = 0 := pyround_eq_self _ _ 0 (by norm_num)
  have hdiff : pyround |(5:ℚ) - 0| 2 = 5 := by
    rw [sub_zero, abs_of_nonneg (by norm_num : (0:ℚ) ≤ 5)]
    exact hfive
  rw [predict_game_eq, hadj]
  show predictWith hn hb 5 an ab (calculate_team_score []) = _
  rw [score_nil, predictWith_def _ _ _ _ _ _ (by norm_num : (5:ℚ) + 0 ≠ 0)]
  rw [hconf, hdiff, hzero, hfive]
  norm_num

/-- C1 (code_bug evidence): on the all-zero input with home advantage
off the combined adjusted score is `0` and `predict_game` hits the
unguarded division `score_diff / total_score`; the embedding returns
`none` (the `ZeroDivisionError`), not a `Prediction` carrying the
fallback confidence `0.0` the spec requires. -/
theorem C1_zero_total_is_fault :
    predict_game ⟨"Zeros", "ZER", []⟩ ⟨"Nils", "NIL", []⟩ false = none := by
  rw [predict_game_eq]
  apply predictWith_zero
  simp [homeAdjusted, score_nil]

/-- C2: whenever `predict_game` returns a `Prediction` on inputs whose
stats mappings carry the data model's nonnegative values, its
`confidence` field lies in the closed interval `[0, 99.9]`. -/
theorem C2_confidence_in_range (home away : TeamInput) (b : Bool) (p : Prediction)
    (hh : nonnegStats home.stats) (ha : nonnegStats away.stats)
    (hp : predict_game home away b = some p) :
    0 ≤ p.confidence ∧ p.confidence ≤ 999/10 := by
  rw [predict_game_eq] at hp
  have hne : homeAdjusted home b + calculate_team_score away.stats ≠ 0 := by
    intro h0
    rw [predictWith_zero _ _ _ _ _ _ h0] at hp
    exact Option.noConfusion hp
  rw [predictWith_def _ _ _ _ _ _ hne] at hp
  injection hp with hp
  subst hp
  have h0 : 0 ≤ homeAdjusted home b := homeAdjusted_nonneg home b hh
  have a0 : 0 ≤ calculate_team_score away.stats := score_nonneg _ ha
  have htot : 0 < homeAdjusted home b + calculate_team_score away.stats :=
    lt_of_le_of_ne (by linarith) (Ne.symm hne)
  have hv : 0 ≤ |homeAdjusted home b - calculate_team_score away.stats|
      / (homeAdjusted home b + calculate_team_score away.stats) * 2000 :=
    mul_nonneg (div_nonneg (abs_nonneg _) (le_of_lt htot)) (by norm_num)
  have hlo : 0 ≤ min (|homeAdjusted home b - calculate_team_score away.stats|
      / (homeAdjusted home b + calculate_team_score away.stats) * 2000) (999/10) :=
    le_min hv (by norm_num)
  have hhi : min (|homeAdjusted home b - calculate_team_score away.stats|
      / (homeAdjusted home b + calculate_team_score away.stats) * 2000) (999/10)
      ≤ 999/10 := min_le_right _ _
  constructor
  · exact pyround_nonneg _ _ hlo
  · have hb999 := pyround_le (min (|homeAdjusted home b - calculate_team_score away.stats|
      / (homeAdjusted home b + calculate_team_score away.stats) * 2000) (999/10)) 1 999
      (by push_cast; norm_num; linarith)
    have : ((999:ℤ):ℚ) / 10 ^ (1:ℕ) = 999/10 := by norm_num
    rw [this] at hb999
    exact hb999

/-- C2 witness: a concrete call (home stats empty, away stats empty,
advantage on) whose confidence `99.9` lies in `[0, 99.9]`. -/
theorem C2_confidence_in_range_witness :
    nonnegStats ([] : TeamStats)
      ∧ (0 ≤ ((999:ℚ)/10) ∧ ((999:ℚ)/10) ≤ 999/10) := by
  constructor
  · simp [nonnegStats]
  · exact C2_confidence_in_range ⟨"H", "H", []⟩ ⟨"A", "A", []⟩ true
      ⟨"H", "H", 999/10, 5, 0, 5⟩ (by simp [nonnegStats]) (by simp [nonnegStats])
      (predict_game_empty "H" "H" "A" "A")

/-- C3: the predicted winner is the home team exactly when the adjusted
home score strictly exceeds the away score (a tie goes to the away
team), and the returned `score_difference` is `|home_adj − away_adj|`
carried to the output with the contract's two-decimal rounding, hence
nonnegative. -/
theorem C3_winner_and_margin (home away : TeamInput) (b : Bool) (p : Prediction)
    (hp : predict_game home away b = some p) :
    (p.predicted_winner
        = if calculate_team_score away.stats < homeAdjusted home b then home.name
          else away.name)
      ∧ p.score_difference
          = pyround |homeAdjusted home b - calculate_team_score away.stats| 2
      ∧ 0 ≤ p.score_difference := by
  rw [predict_game_eq] at hp
  have hne : homeAdjusted home b + calculate_team_score away.stats ≠ 0 := by
    intro h0
    rw [predictWith_zero _ _ _ _ _ _ h0] at hp
    exact Option.noConfusion hp
  rw [predictWith_def _ _ _ _ _ _ hne] at hp
  injection hp with hp
  subst hp
  exact ⟨rfl, rfl, pyround_nonneg _ _ (abs_nonneg _)⟩

/-- C3 witness: on the concrete call with both stats empty and the
advantage on, the winner is the home side and the margin is `5`. -/
theorem C3_winner_and_margin_witness :
    (("H" : String)
        = if calculate_team_score ([] : TeamStats)
              < homeAdjusted ⟨"H", "H", ([] : TeamStats)⟩ true
          then "H" else "A")
      ∧ ((5:ℚ)
          = pyround |homeAdjusted ⟨"H", "H", ([] : TeamStats)⟩ true
              - calculate_team_score ([] : TeamStats)| 2)
      ∧ 0 ≤ (5:ℚ) :=
  C3_winner_and_margin ⟨"H", "H", []⟩ ⟨"A", "A", []⟩ true
    ⟨"H", "H", 999/10, 5, 0, 5⟩ (predict_game_empty "H" "H" "A" "A")

/-- C4: `calculate_team_score` equals the spec's closed formula
`fg_pct*3.0 + ppg*0.5 + apg*2.0 + rpg*1.5` on every stats mapping,
with exactly those four weights and no normalization, clipping or
bounds checking; as a total Lean function over `TeamStats` it is
defined on any finite input. -/
theorem C4_score_formula (stats : TeamStats) :
    calculate_team_score stats = score_spec_formula stats := by
  rw [score_unfold]
  rfl

/-- C4 witness: the formula evaluated on a concrete mapping. -/
theorem C4_score_formula_witness :
    calculate_team_score [("fg_pct", (10:ℚ)), ("ppg", 2)]
      = score_spec_formula [("fg_pct", (10:ℚ)), ("ppg", 2)] :=
  C4_score_formula [("fg_pct", (10:ℚ)), ("ppg", 2)]

/-- C5: when the combined adjusted score is nonzero, the returned
confidence is `min((|home_adj − away_adj| / (home_adj + away_adj)) * 2000,
99.9)` rounded to one decimal place. -/
theorem C5_confidence_value (home away : TeamInput) (b : Bool)
    (hne : homeAdjusted home b + calculate_team_score away.stats ≠ 0) :
    Option.map Prediction.confidence (predict_game home away b)
      = some (pyround (min (|homeAdjusted home b - calculate_team_score away.stats|
          / (homeAdjusted home b + calculate_team_score away.stats) * 2000)
          (999/10)) 1) := by
  rw [predict_game_eq, predictWith_def _ _ _ _ _ _ hne]
  rfl

/-- C5 witness: the confidence formula evaluated on the concrete call
with both stats empty and the advantage on. -/
theorem C5_confidence_value_witness :
    (homeAdjusted ⟨"H", "H", ([] : TeamStats)⟩ true
        + calculate_team_score ([] : TeamStats) ≠ 0)
      ∧ Option.map Prediction.confidence
          (predict_game ⟨"H", "H", []⟩ ⟨"A", "A", []⟩ true)
        = some (pyround (min (|homeAdjusted ⟨"H", "H", ([] : TeamStats)⟩ true
              - calculate_team_score ([] : TeamStats)|
            / (homeAdjusted ⟨"H", "H", ([] : TeamStats)⟩ true
              + calculate_team_score ([] : TeamStats)) * 2000) (999/10)) 1) := by
  have hne : homeAdjusted ⟨"H", "H", ([] : TeamStats)⟩ true
      + calculate_team_score ([] : TeamStats) ≠ 0 := by
    simp [homeAdjusted, score_nil, HOME_COURT_ADVANTAGE]
  exact ⟨hne, C5_confidence_value ⟨"H", "H", []⟩ ⟨"A", "A", []⟩ true hne⟩

/-- C6: the flag adds the constant `5.0` to the home team's raw score
before the comparison (and nothing when off), and the reported
`home_score` and `away_score` fields are the adjusted scores rounded
to two decimals, not the raw values. -/
theorem C6_home_advantage (home away : TeamInput) (b : Bool) :
    homeAdjusted home true = calculate_team_score home.stats + 5
      ∧ homeAdjusted home false = calculate_team_score home.stats
      ∧ predict_game home away b
          = predictWith home.name home.abbreviation (homeAdjusted home b)
              away.name away.abbreviation (calculate_team_score away.stats)
      ∧ Option.map Prediction.home_score (predict_game home away b)
          = Option.map (fun _ => pyround (homeAdjusted home b) 2)
              (predict_game home away b)
      ∧ Option.map Prediction.away_score (predict_game home away b)
          = Option.map (fun _ => pyround (calculate_team_score away.stats) 2)
              (predict_game home away b) := by
  refine ⟨by simp [homeAdjusted, HOME_COURT_ADVANTAGE], rfl,
    predict_game_eq home away b, ?_, ?_⟩
  · rw [predict_game_eq]
    by_cases hne : homeAdjusted home b + calculate_team_score away.stats = 0
    · rw [predictWith_zero _ _ _ _ _ _ hne]
      rfl
    · rw [predictWith_def _ _ _ _ _ _ hne]
      rfl
  · rw [predict_game_eq]
    by_cases hne : homeAdjusted home b + calculate_team_score away.stats = 0
    · rw [predictWith_zero _ _ _ _ _ _ hne]
      rfl
    · rw [predictWith_def _ _ _ _ _ _ hne]
      rfl

/-- Adding a key bound to `0` in front of a mapping that lacks it does
not change any looked-up stat value. -/
lemma statGet_cons_absent (stats : TeamStats) (k : String)
    (hk : statLookup stats k = none) (key : String) :
    statGet ((k, 0) :: stats) key = statGet stats key := by
  by_cases hkey : key = k
  · subst hkey
    simp [statGet, statLookup, hk]
  · simp [statGet, statLookup, hkey]

/-- C7: a recognized key absent from a stats mapping behaves exactly
like the same key present with value `0.0`: `calculate_team_score`,
and hence `predict_game` on either side, return the same results. -/
theorem C7_missing_key_is_zero (stats : TeamStats) (k : String)
    (hk : statLookup stats k = none) :
    calculate_team_score ((k, 0) :: stats) = calculate_team_score stats
      ∧ ∀ (n ab : String) (other : TeamInput) (b : Bool),
          predict_game ⟨n, ab, (k, 0) :: stats⟩ other b
              = predict_game ⟨n, ab, stats⟩ other b
          ∧ predict_game other ⟨n, ab, (k, 0) :: stats⟩ b
              = predict_game other ⟨n, ab, stats⟩ b := by
  have hs : calculate_team_score ((k, 0) :: stats) = calculate_team_score stats := by
    rw [score_unfold, score_unfold]
    rw [statGet_cons_absent stats k hk, statGet_cons_absent stats k hk,
      statGet_cons_absent stats k hk, statGet_cons_absent stats k hk]
  refine ⟨hs, fun n ab other b => ⟨?_, ?_⟩⟩
  · rw [predict_game_eq, predict_game_eq]
    simp only [homeAdjusted, hs]
  · rw [predict_game_eq, predict_game_eq]
    simp only [hs]

/-- C7 witness: extending `[("ppg", 2)]` with the absent recognized key
`fg_pct` bound to `0` leaves the score unchanged. -/
theorem C7_missing_key_is_zero_witness :
    statLookup [("ppg", (2:ℚ))] "fg_pct" = none
      ∧ calculate_team_score (("fg_pct", 0) :: [("ppg", (2:ℚ))])
          = calculate_team_score [("ppg", (2:ℚ))] := by
  have hk : statLookup [("ppg", (2:ℚ))] "fg_pct" = none := by
    simp [statLookup]
  exact ⟨hk, (C7_missing_key_is_zero [("ppg", (2:ℚ))] "fg_pct" hk).1⟩

/-- C8: calling `predict_game` with the advantage off yields exactly
the prediction computed from the with-advantage adjusted home score
minus `5.0`, everywhere that score appears — winner choice, reported
`home_score`, `score_difference` and confidence all flow from the
shifted score through `predictWith`. -/
theorem C8_disable_advantage_is_shift (home away : TeamInput) :
    predict_game home away false
      = predictWith home.name home.abbreviation
          (homeAdjusted home true - HOME_COURT_ADVANTAGE)
          away.name away.abbreviation (calculate_team_score away.stats) := by
  rw [predict_game_eq]
  have hshift : homeAdjusted home true - HOME_COURT_ADVANTAGE
      = homeAdjusted home false := by
    simp [homeAdjusted]
  rw [hshift]

/-- C9: `predict_game` is a pure function of its two team records and
the flag — structurally identical inputs give an identical result; the
embedding reads no other state. -/
theorem C9_deterministic (home1 away1 : TeamInput) (b1 : Bool)
    (home2 away2 : TeamInput) (b2 : Bool)
    (e1 : home1 = home2) (e2 : away1 = away2) (e3 : b1 = b2) :
    predict_game home1 away1 b1 = predict_game home2 away2 b2 := by
  subst e1
  subst e2
  subst e3
  rfl

/-- C9 witness: two calls on the same concrete input coincide. -/
theorem C9_deterministic_witness :
    predict_game ⟨"H", "H", []⟩ ⟨"A", "A", []⟩ true
      = predict_game ⟨"H", "H", []⟩ ⟨"A", "A", []⟩ true :=
  C9_deterministic ⟨"H", "H", []⟩ ⟨"A", "A", []⟩ true
    ⟨"H", "H", []⟩ ⟨"A", "A", []⟩ true rfl rfl rfl

/-- C10: when both teams contribute a zero strength score (no
recognized keys, or all recognized stats zero) and the advantage is on,
the engine reports the home team as winner with the maximal confidence
`99.9`, `home_score = 5.0`, `away_score = 0.0` and
`score_difference = 5.0`. -/
theorem C10_no_data_max_confidence (home away : TeamInput)
    (hh : calculate_team_score home.stats = 0)
    (ha : calculate_team_score away.stats = 0) :
    predict_game home away true
      = some ⟨home.name, home.abbreviation, 999/10, 5, 0, 5⟩ := by
  have hadj : homeAdjusted home true = 5 := by
    simp [homeAdjusted, HOME_COURT_ADVANTAGE, hh]
  have hconf : pyround (min (|(5:ℚ) - 0| / (5 + 0) * 2000) (999/10)) 1 = 999/10 := by
    have hm : min (|(5:ℚ) - 0| / (5 + 0) * 2000) (999/10) = 999/10 := by
      rw [sub_zero, abs_of_nonneg (by norm_num : (0:ℚ) ≤ 5)]
      rw [min_eq_right (by norm_num)]
    rw [hm]
    exact pyround_eq_self _ _ 999 (by norm_num)
  have hfive : pyround (5:ℚ) 2 = 5 := pyround_eq_self _ _ 500 (by norm_num)
  have hzero : pyround (0:ℚ) 2 = 0 := pyround_eq_self _ _ 0 (by norm_num)
  have hdiff : pyround |(5:ℚ) - 0| 2 = 5 := by
    rw [sub_zero, abs_of_nonneg (by norm_num : (0:ℚ) ≤ 5)]
    exact hfive
  rw [predict_game_eq, hadj, ha,
    predictWith_def _ _ _ _ _ _ (by norm_num : (5:ℚ) + 0 ≠ 0)]
  rw [hconf, hdiff, hzero, hfive]
  norm_num

/-- C10 witness: the concrete empty-stats call with advantage on. -/
theorem C10_no_data_max_confidence_witness :
    calculate_team_score ([] : TeamStats) = 0
      ∧ predict_game ⟨"W", "W", []⟩ ⟨"L", "L", []⟩ true
          = some ⟨"W", "W", 999/10, 5, 0, 5⟩ :=
  ⟨score_nil, C10_no_data_max_confidence ⟨"W", "W", []⟩ ⟨"L", "L", []⟩
    score_nil score_nil⟩
